import Mathlib

/-!
Shallow embedding of the budget pages of ficore-finance
(`src/pages/budget/BudgetManage.tsx`, the co-located `BudgetNew`
component, and the `BudgetDashboard` page), together with proofs about
their validation, submission, deletion and list-editing logic.

JavaScript numbers that the pages store are embedded as `ℚ`; a raw text
input field is embedded as its text together with the result of
`parseFloat` on it (`none` standing for NaN).
-/

namespace FicoreFinance

/-- A user-defined budget category, `interface CustomCategory` in `BudgetNew`. -/
structure CustomCategory where
  name : String
  amount : ℚ
deriving DecidableEq, Repr

/-- The `formData` state of the `BudgetNew` page: monthly income, the six
standard expense fields, the savings goal and the custom category list. -/
structure FormData where
  income : ℚ
  housing : ℚ
  food : ℚ
  transport : ℚ
  dependents : ℚ
  miscellaneous : ℚ
  others : ℚ
  savings_goal : ℚ
  custom_categories : List CustomCategory
deriving DecidableEq, Repr

/-- The initial `useState` value of `formData`: every numeric field is 0 and
there are no custom categories. -/
def initialFormData : FormData :=
  { income := 0, housing := 0, food := 0, transport := 0, dependents := 0,
    miscellaneous := 0, others := 0, savings_goal := 0, custom_categories := [] }

/-- A raw text value as read from an `IonInput`. `parse` is the result of the
JS `parseFloat` on `text`: `some q` when the text starts with a numeric token
of value `q`, `none` when `parseFloat` yields NaN. -/
structure RawString where
  text : String
  parse : Option ℚ
deriving DecidableEq, Repr

/-- The expression `parseFloat(value) || 0`: NaN (and 0 itself) become 0. -/
def parseFloatOr0 (v : Option ℚ) : ℚ :=
  match v with
  | some q => q
  | none => 0

/-- The `name` attribute of one of the standard numeric inputs of the form. -/
inductive StdField where
  | income
  | housing
  | food
  | transport
  | dependents
  | miscellaneous
  | others
  | savings_goal
deriving DecidableEq, Repr

/-- The computed-key update `{ ...prev, [name]: x }` on `formData`. -/
def setStdField (f : FormData) (name : StdField) (x : ℚ) : FormData :=
  match name with
  | .income => { f with income := x }
  | .housing => { f with housing := x }
  | .food => { f with food := x }
  | .transport => { f with transport := x }
  | .dependents => { f with dependents := x }
  | .miscellaneous => { f with miscellaneous := x }
  | .others => { f with others := x }
  | .savings_goal => { f with savings_goal := x }

/-- Reading the standard field `name` out of `formData`. -/
def getStdField (f : FormData) (name : StdField) : ℚ :=
  match name with
  | .income => f.income
  | .housing => f.housing
  | .food => f.food
  | .transport => f.transport
  | .dependents => f.dependents
  | .miscellaneous => f.miscellaneous
  | .others => f.others
  | .savings_goal => f.savings_goal

/-- `handleInputChange`:
`setFormData(prev => ({ ...prev, [name]: parseFloat(value) || 0 }))`. -/
def handleInputChange (f : FormData) (name : StdField) (value : RawString) : FormData :=
  setStdField f name (parseFloatOr0 value.parse)

/-- `addCustomCategory`: spreads the previous list and appends
`{ name: '', amount: 0 }` at the end. -/
def addCustomCategory (f : FormData) : FormData :=
  { f with custom_categories := f.custom_categories ++ [{ name := "", amount := 0 }] }

/-- The `field` argument of `handleCustomCategoryChange`. -/
inductive CatField where
  | name
  | amount
deriving DecidableEq, Repr

/-- The assignment
`updated[index][field] = field === 'amount' ? parseFloat(value) || 0 : value`
applied to one entry. -/
def setCatField (c : CustomCategory) (field : CatField) (value : RawString) : CustomCategory :=
  match field with
  | .name => { c with name := value.text }
  | .amount => { c with amount := parseFloatOr0 value.parse }

/-- `handleCustomCategoryChange`: copies the list and overwrites one field of
the entry at `index`. An out-of-range `index` would make the JS assignment
throw (`updated[index]` is `undefined`); that case is embedded as leaving the
state unchanged and is excluded by the hypotheses of the theorems below. -/
def handleCustomCategoryChange (f : FormData) (index : ℕ) (field : CatField)
    (value : RawString) : FormData :=
  match f.custom_categories[index]? with
  | some c =>
      { f with custom_categories :=
          f.custom_categories.set index (setCatField c field value) }
  | none => f

/-- `removeCustomCategory`:
`formData.custom_categories.filter((_, i) => i !== index)`. -/
def removeCustomCategory (f : FormData) (index : ℕ) : FormData :=
  { f with custom_categories :=
      ((f.custom_categories.enum).filter (fun p => p.1 != index)).map Prod.snd }

/-- The error message of the income rule (the `defaultValue` of the
`budget_income_required` translation key). -/
def budgetIncomeRequiredMsg : String := "Income is required and must be positive"

/-- The `newErrors` mapping built by `validateForm`: the only rule present in
the source is `formData.income <= 0`; the adjacent WTForms comment names
further rules (`NumberRange(min=0, max=10000000000)`, etc.) that are not
implemented. -/
def validateFormErrors (f : FormData) : List (String × List String) :=
  if f.income ≤ 0 then [("income", [budgetIncomeRequiredMsg])] else []

/-- `validateForm` stores `newErrors` and returns
`Object.keys(newErrors).length === 0`. -/
def validateForm (f : FormData) : Bool :=
  (validateFormErrors f).length == 0

/-- The `NumberRange` upper bound named in the source's WTForms comment. -/
def MAX_AMOUNT : ℚ := 10000000000

/-- `handleSubmit`, restricted to the payload that reaches `postBudget`:
`if (!validateForm()) return;` and then `postBudget(formData)`. The value
`none` means `postBudget` is never invoked. -/
def handleSubmitPost (f : FormData) : Option FormData :=
  if validateForm f then some f else none

/-- A stored budget row as the `BudgetManage` page sees it (only `id` is
consulted by `handleDelete`). -/
structure BudgetRow where
  id : String
deriving DecidableEq, Repr

/-- The outcome of the `deleteBudget(budgetId)` call as observed by
`handleDelete`: a response with `success: true`, a response without it, or a
thrown error. -/
inductive DeleteOutcome where
  | success
  | failure
  | thrown
deriving DecidableEq, Repr

/-- `handleDelete`: when `response.success` holds,
`setBudgets(prev => prev.filter(b => b.id !== budgetId))`; a non-success
response or a thrown error only changes the alert, never the list. -/
def handleDelete (budgets : List BudgetRow) (budgetId : String)
    (outcome : DeleteOutcome) : List BudgetRow :=
  match outcome with
  | .success => budgets.filter (fun b => b.id != budgetId)
  | .failure => budgets
  | .thrown => budgets

/-- Modelled from the spec: a stored Budget snapshot as the
`BudgetHistoryAggregator` sees it. The aggregator itself is behind the
`getBudgetDashboard` API and is not under `src/`; only its caller, the
`BudgetDashboard` page, is. Ids are assigned monotonically increasing and
positive at creation. -/
structure BudgetSnapshot where
  id : ℕ
  createdAt : ℕ
  income : ℚ
  total_expenses : ℚ
deriving DecidableEq, Repr

/-- Modelled from the spec: the `DashboardSummary` produced by `aggregate`,
restricted to the fields the dashboard's branch logic reads (the empty-state
branch depends only on `latest_budget`). -/
structure DashboardSummary where
  latest_budget : Option BudgetSnapshot
  budgets : List BudgetSnapshot
deriving DecidableEq, Repr

/-- Modelled from the spec: `a` is strictly later than `b` — larger
`createdAt`, ties broken by larger `id`. -/
def laterThan (a b : BudgetSnapshot) : Bool :=
  a.createdAt > b.createdAt || (a.createdAt == b.createdAt && a.id > b.id)

/-- Modelled from the spec: the entry with maximum `createdAt` (tie-break:
maximum `id`), `none` on the empty sequence. -/
def latestOf (budgets : List BudgetSnapshot) : Option BudgetSnapshot :=
  budgets.foldl
    (fun acc b =>
      match acc with
      | none => some b
      | some a => if laterThan b a then some b else some a)
    none

/-- Modelled from the spec: insert into a list kept sorted by `createdAt`
descending. -/
def insertDesc (b : BudgetSnapshot) : List BudgetSnapshot → List BudgetSnapshot
  | [] => [b]
  | a :: rest => if laterThan a b then a :: insertDesc b rest else b :: a :: rest

/-- Modelled from the spec: the full sequence sorted by `createdAt`
descending. -/
def sortDesc (l : List BudgetSnapshot) : List BudgetSnapshot :=
  l.foldr insertDesc []

/-- Modelled from the spec: `aggregate(budgets) -> DashboardSummary`; empty
input yields a summary with no latest budget, non-empty input the latest
entry and the history sorted by `createdAt` descending. -/
def aggregate (budgets : List BudgetSnapshot) : DashboardSummary :=
  { latest_budget := latestOf budgets, budgets := sortDesc budgets }

/-- The mutually exclusive display states of the `BudgetDashboard` page. -/
inductive DashboardRender where
  | loadingView
  | errorView
  | contentView
  | emptyStateView
deriving DecidableEq, Repr

/-- The `BudgetDashboard` render logic: the `loading` and fetch-`error` early
returns, then `dashboardData.latest_budget || {}` followed by the
`latestBudget.id ?` branch — a missing latest budget gives `{}`, whose `id`
is `undefined` and falsy, and a numeric id is truthy exactly when nonzero. -/
def renderDashboard (loading : Bool) (fetchError : Bool)
    (data : DashboardSummary) : DashboardRender :=
  if loading then .loadingView
  else if fetchError then .errorView
  else
    match data.latest_budget with
    | some b => if b.id != 0 then .contentView else .emptyStateView
    | none => .emptyStateView

/-! ## Theorems -/

/-- C1: for every form state, validation rejects income = 0 and income = -5
with a field error recorded under the key `income`, and accepts
income = 0.01: `validateForm` returns `true` and the errors mapping has no
`income` entry. -/
theorem C1_income_boundary_validation (f : FormData) :
    validateForm { f with income := 0 } = false ∧
    (validateFormErrors { f with income := 0 }).lookup "income"
      = some [budgetIncomeRequiredMsg] ∧
    validateForm { f with income := -5 } = false ∧
    (validateFormErrors { f with income := -5 }).lookup "income"
      = some [budgetIncomeRequiredMsg] ∧
    validateForm { f with income := 1/100 } = true ∧
    (validateFormErrors { f with income := 1/100 }).lookup "income" = none := by
  refine ⟨?_, ?_, ?_, ?_, ?_, ?_⟩ <;>
    norm_num [validateForm, validateFormErrors, List.lookup]

/-- C3: validation evaluates its rules independently and collects every
violation into a field-to-error-list mapping: an entry is present exactly
when the corresponding rule is violated (the source's rule set consists of
the single income rule), and validation succeeds exactly when the mapping is
empty — the failure result is always the mapping itself, never a single flat
message. -/
theorem C3_all_violations_collected (f : FormData) :
    (∀ key msgs, (key, msgs) ∈ validateFormErrors f ↔
      (key = "income" ∧ f.income ≤ 0 ∧ msgs = [budgetIncomeRequiredMsg])) ∧
    (validateForm f = true ↔ validateFormErrors f = []) := by
  constructor
  · intro key msgs
    unfold validateFormErrors
    by_cases h : f.income ≤ 0 <;> simp [h, and_assoc]
  · unfold validateForm
    simp [List.length_eq_zero]

/-- A form whose custom category breaks the custom-category rules (an empty
name — hence empty after any trimming — and a negative amount) while income
is positive. -/
def invalidCustomCatForm : FormData :=
  { initialFormData with
      income := 100,
      custom_categories := [{ name := "", amount := -1 }] }

/-- C4 (code behavior at the failing input): the form holds a custom category
whose name is empty (so empty after trimming) and whose amount is negative,
yet `validateForm` returns `true` with an empty errors mapping — the source
validates only `income` and never inspects `custom_categories`. -/
theorem C4_custom_categories_not_validated :
    (invalidCustomCatForm.custom_categories.any
       (fun c => c.name == "" || decide (c.amount < 0))) = true ∧
    validateForm invalidCustomCatForm = true ∧
    validateFormErrors invalidCustomCatForm = [] := by
  refine ⟨by decide, ?_, ?_⟩ <;> decide

/-- A form whose income is twice the WTForms `NumberRange` upper bound. -/
def oversizedIncomeForm : FormData :=
  { initialFormData with income := 20000000000 }

/-- C5 (code behavior at the failing input): an income strictly above
`MAX_AMOUNT` passes `validateForm` with no `income` error — the upper bound
named in the source's own WTForms comment is not enforced. -/
theorem C5_income_upper_bound_not_enforced :
    MAX_AMOUNT < oversizedIncomeForm.income ∧
    validateForm oversizedIncomeForm = true ∧
    (validateFormErrors oversizedIncomeForm).lookup "income" = none := by
  refine ⟨by decide, ?_, ?_⟩ <;> decide

/-- C6: aggregating an empty budget sequence yields a summary with no latest
budget, and after a successful fetch the dashboard renders the empty-state
branch for that summary, not the error branch. -/
theorem C6_empty_history_is_empty_state :
    (aggregate []).latest_budget = none ∧
    renderDashboard false false (aggregate [])
      = DashboardRender.emptyStateView := by
  exact ⟨rfl, rfl⟩

/-- C7: every standard numeric field (income, the six expense fields and the
savings goal) starts at 0 in the initial form state, and a change event whose
text does not parse as a number (`parseFloat` gives NaN) stores 0 into the
field. -/
theorem C7_fields_default_to_zero (f : FormData) (name : StdField) (s : String) :
    getStdField initialFormData name = 0 ∧
    getStdField (handleInputChange f name { text := s, parse := none }) name = 0 := by
  constructor <;> cases name <;>
    simp [getStdField, handleInputChange, setStdField, parseFloatOr0, initialFormData]

/-- C8: when validation fails, `handleSubmit` returns before the
budget-creation call: no payload reaches `postBudget`. -/
theorem C8_invalid_never_posted (f : FormData) (h : validateForm f = false) :
    handleSubmitPost f = none := by
  unfold handleSubmitPost
  simp [h]

/-- C8 witness: the initial form (income 0) fails validation and produces no
`postBudget` call. -/
theorem C8_invalid_never_posted_witness :
    validateForm initialFormData = false ∧
    handleSubmitPost initialFormData = none :=
  ⟨by decide, C8_invalid_never_posted initialFormData (by decide)⟩

/-- C9: a successful delete removes from the list exactly the rows whose id
equals `budgetId` — the result is a sublist of the original (order and
contents of the survivors preserved) in which rows with the deleted id have
multiplicity 0 and every other row keeps its multiplicity — while a
non-success response or a thrown call leaves the list entirely unchanged. -/
theorem C9_delete_removes_exactly_matching (budgets : List BudgetRow)
    (budgetId : String) :
    (handleDelete budgets budgetId .success).Sublist budgets ∧
    (∀ b : BudgetRow,
      (handleDelete budgets budgetId .success).count b
        = if b.id = budgetId then 0 else budgets.count b) ∧
    handleDelete budgets budgetId .failure = budgets ∧
    handleDelete budgets budgetId .thrown = budgets := by
  refine ⟨List.filter_sublist budgets, ?_, rfl, rfl⟩
  intro b
  show (budgets.filter (fun r => r.id != budgetId)).count b = _
  by_cases h : b.id = budgetId
  · rw [if_pos h, List.count_eq_zero]
    intro hmem
    rw [List.mem_filter] at hmem
    simp [h] at hmem
  · rw [if_neg h]
    exact List.count_filter (by simp [h])

/-- Indices of `enumFrom m l` all lie at or above `m`, so a filter that only
drops an index below `m` keeps every entry. -/
theorem filter_enumFrom_of_lt {α : Type} (l : List α) :
    ∀ m k, k < m →
      (List.enumFrom m l).filter (fun p => p.1 != k) = List.enumFrom m l := by
  induction l with
  | nil => intro m k _; rfl
  | cons a t ih =>
    intro m k h
    have hc : (m != k) = true := by simp; omega
    simp only [List.enumFrom_cons, List.filter_cons, hc, if_true]
    rw [ih (m + 1) k (by omega)]

/-- Filtering the entry with index `n + i` out of `enumFrom n l` and dropping
the indices is exactly `eraseIdx i`. -/
theorem enumFrom_filter_ne_map_snd {α : Type} (l : List α) :
    ∀ n i, ((List.enumFrom n l).filter (fun p => p.1 != n + i)).map Prod.snd
      = l.eraseIdx i := by
  induction l with
  | nil => intro n i; rfl
  | cons a t ih =>
    intro n i
    cases i with
    | zero =>
      simp only [Nat.add_zero, List.enumFrom_cons, List.filter_cons,
        bne_self_eq_false, if_false]
      rw [filter_enumFrom_of_lt t (n + 1) n (by omega)]
      exact List.enumFrom_map_snd (n + 1) t
    | succ j =>
      have hc : (n != n + (j + 1)) = true := by simp
      simp only [List.enumFrom_cons, List.filter_cons, hc, if_true,
        List.map_cons, List.eraseIdx_cons_succ]
      simp only [show n + (j + 1) = (n + 1) + j from by omega]
      rw [ih (n + 1) j]

/-- `removeCustomCategory` is index-`i` erasure on the category list. -/
theorem removeCustomCategory_eq_eraseIdx (f : FormData) (i : ℕ) :
    (removeCustomCategory f i).custom_categories
      = f.custom_categories.take i ++ f.custom_categories.drop (i + 1) := by
  have h := enumFrom_filter_ne_map_snd f.custom_categories 0 i
  simp only [Nat.zero_add] at h
  show ((f.custom_categories.enum).filter (fun p => p.1 != i)).map Prod.snd = _
  rw [show f.custom_categories.enum = List.enumFrom 0 f.custom_categories from rfl,
    h, List.eraseIdx_eq_take_drop_succ]

/-- C10: `addCustomCategory` appends exactly one blank entry at the end (the
length grows by one, the original prefix is unchanged, the new last entry is
`{name: '', amount: 0}`); `removeCustomCategory i` deletes exactly the entry
at index `i`, keeping the remaining entries in relative order; and
`handleCustomCategoryChange i field v` keeps the length, keeps every entry at
an index other than `i`, and rewrites only the addressed field of entry `i`
(the other field of that entry is preserved). -/
theorem C10_custom_list_editing_frame (f : FormData) (i : ℕ) (v : RawString)
    (hi : i < f.custom_categories.length) :
    (addCustomCategory f).custom_categories.length
      = f.custom_categories.length + 1 ∧
    (addCustomCategory f).custom_categories.take f.custom_categories.length
      = f.custom_categories ∧
    (addCustomCategory f).custom_categories[f.custom_categories.length]?
      = some { name := "", amount := 0 } ∧
    (removeCustomCategory f i).custom_categories
      = f.custom_categories.take i ++ f.custom_categories.drop (i + 1) ∧
    (∀ field : CatField,
      (handleCustomCategoryChange f i field v).custom_categories.length
        = f.custom_categories.length ∧
      ∀ j, j ≠ i →
        (handleCustomCategoryChange f i field v).custom_categories[j]?
          = f.custom_categories[j]?) ∧
    ((handleCustomCategoryChange f i .name v).custom_categories[i]?).map
        CustomCategory.amount
      = (f.custom_categories[i]?).map CustomCategory.amount ∧
    ((handleCustomCategoryChange f i .name v).custom_categories[i]?).map
        CustomCategory.name
      = (f.custom_categories[i]?).map (fun _ => v.text) ∧
    ((handleCustomCategoryChange f i .amount v).custom_categories[i]?).map
        CustomCategory.name
      = (f.custom_categories[i]?).map CustomCategory.name ∧
    ((handleCustomCategoryChange f i .amount v).custom_categories[i]?).map
        CustomCategory.amount
      = (f.custom_categories[i]?).map (fun _ => parseFloatOr0 v.parse) := by
  obtain ⟨c, hc⟩ : ∃ c, f.custom_categories[i]? = some c :=
    ⟨_, List.getElem?_eq_getElem hi⟩
  refine ⟨?_, ?_, ?_, removeCustomCategory_eq_eraseIdx f i, ?_, ?_, ?_, ?_, ?_⟩
  · simp [addCustomCategory]
  · exact List.take_left _ _
  · exact List.getElem?_concat_length _ _
  · intro field
    constructor
    · simp only [handleCustomCategoryChange, hc]
      simp
    · intro j hj
      simp only [handleCustomCategoryChange, hc]
      exact List.getElem?_set_ne (Ne.symm hj)
  · simp only [handleCustomCategoryChange, hc,
      List.getElem?_set_eq_of_lt _ hi, Option.map_some]
    rfl
  · simp only [handleCustomCategoryChange, hc,
      List.getElem?_set_eq_of_lt _ hi, Option.map_some]
    rfl
  · simp only [handleCustomCategoryChange, hc,
      List.getElem?_set_eq_of_lt _ hi, Option.map_some]
    rfl
  · simp only [handleCustomCategoryChange, hc,
      List.getElem?_set_eq_of_lt _ hi, Option.map_some]
    rfl

/-- A concrete two-entry form for exercising the list-editing operations. -/
def twoCatForm : FormData :=
  { initialFormData with
      custom_categories := [{ name := "a", amount := 1 }, { name := "b", amount := 2 }] }

/-- C10 witness: on a concrete two-entry list, index 0 is in range and
removing index 0 leaves exactly the second entry. -/
theorem C10_custom_list_editing_frame_witness :
    0 < twoCatForm.custom_categories.length ∧
    (removeCustomCategory twoCatForm 0).custom_categories
      = [{ name := "b", amount := 2 }] := by
  refine ⟨by decide, ?_⟩
  have h := (C10_custom_list_editing_frame twoCatForm 0
    { text := "x", parse := some 3 } (by decide)).2.2.2.1
  rw [h]
  decide

end FicoreFinance
